import Mathlib

/-!
Verification of the session-store and memory-store core of `api_fraym`
(`src/intentlayer_aiserver/services/memory_service.py` and
`src/intentlayer_aiserver/services/session_service.py`).

The Python services manipulate JSON-like dynamic dictionaries; we embed those
as association lists of `JVal` values.  Python `dict`s always have unique keys
and preserve insertion order, which the association-list operations below
mirror (`aset` replaces the first binding in place or appends a fresh one,
`aerase` removes the binding, exactly like `d[k] = v` / `del d[k]`).
Python `float` scores are embedded as exact rationals `ℚ`; every score in the
code is produced from the decimal literals 0.5, 0.3, 0.2, 0.1, 1.0.
Python's `sorted` is a stable sort, and a stable sort's output is uniquely
determined by the comparator, so it is embedded as `List.insertionSort`
(Mathlib's stable sort) with the matching "reverse" comparator.
-/

namespace Fraym

/-- A JSON-like dynamic value, the payloads the Python services store. -/
inductive JVal where
  | str : String → JVal
  | num : Int → JVal
  | bool : Bool → JVal
  | null : JVal
  | arr : List JVal → JVal
  | obj : List (String × JVal) → JVal

/-- A Python `dict` with string keys: an insertion-ordered association list. -/
abbrev PyDict := List (String × JVal)

/-- Dictionary lookup `d.get(k)` / `d[k]` (first binding wins; Python keys are unique). -/
def alookup {β : Type} : List (String × β) → String → Option β
  | [], _ => none
  | p :: d, k => if p.1 = k then some p.2 else alookup d k

/-- Dictionary assignment `d[k] = v`: replace the binding in place, or append a new one. -/
def aset {β : Type} : List (String × β) → String → β → List (String × β)
  | [], k, v => [(k, v)]
  | p :: d, k, v => if p.1 = k then (k, v) :: d else p :: aset d k v

/-- Dictionary deletion `del d[k]`: drop the binding for `k`. -/
def aerase {β : Type} : List (String × β) → String → List (String × β)
  | [], _ => []
  | p :: d, k => if p.1 = k then d else p :: aerase d k

/-- Python `d.update(patch)`: assign each binding of `patch` into `d`, in order. -/
def dict_update {β : Type} (d patch : List (String × β)) : List (String × β) :=
  patch.foldl (fun acc kv => aset acc kv.1 kv.2) d

/-- Python `len` on a JSON value: defined on strings, lists and dicts,
a `TypeError` (here `none`) otherwise. -/
def py_len : JVal → Option ℕ
  | .str s => some s.length
  | .arr l => some l.length
  | .obj l => some l.length
  | _ => none

/-- The `type` tag of an interaction payload: `interaction.get('type', '')`, as the
string it is compared against; a non-string value never equals a string in Python. -/
def py_type_tag (i : PyDict) : Option String :=
  match (alookup i "type").getD (JVal.str "") with
  | JVal.str s => some s
  | _ => none

/-! ### Memory store data model (`memory_service.py`) -/

/-- One stored interaction (`MemoryEntry`, built in `store_interaction`). -/
structure MemoryEntry where
  id : ℕ
  user_id : String
  session_id : Option String
  timestamp : Int
  interaction_type : JVal
  data : PyDict
  context : PyDict
  relevance_score : ℚ

/-- The fields of the derived `context_summary` that the claims refer to
(`_update_context_summary`); the remaining derived tallies are not referenced
by any claim. -/
structure ContextSummary where
  total_interactions : ℕ
  recent_interactions : ℕ
  recent_intents : List JVal

/-- The per-user aggregate kept in `memory_storage[user_id]`. -/
structure UserMemory where
  user_id : String
  created_at : Int
  last_interaction : Int
  entries : List MemoryEntry
  preferences : PyDict
  context_summary : ContextSummary

/-- `memory_storage`: a dict keyed by `user_id`. -/
abbrev MemoryStore := List (String × UserMemory)

/-- The arguments of one `store_interaction` call (`MemoryRequest`). -/
structure MemoryRequest where
  user_id : String
  session_id : Option String
  interaction : PyDict
  context : Option PyDict

/-- First half of `_calculate_relevance_score`: `base_score = 0.5` plus the
interaction-type bonus (`+0.3` for purchase/support/form_fill, else `+0.2`
for question/search). -/
def interaction_type_base (i : PyDict) : ℚ :=
  if py_type_tag i = some "purchase" ∨ py_type_tag i = some "support" ∨
      py_type_tag i = some "form_fill" then
    0.5 + 0.3
  else if py_type_tag i = some "question" ∨ py_type_tag i = some "search" then
    0.5 + 0.2
  else
    0.5

/-- Last step of `_calculate_relevance_score`: the rich-context bonus
(`+0.1` if the payload's own `'context'` entry has `len > 2`) followed by
`min(base_score, 1.0)`.  `none` models the `TypeError` raised by `len` on an
unsized value, which `store_interaction` catches as a failure. -/
def context_rich_step (i : PyDict) (score : ℚ) : Option ℚ :=
  match alookup i "context" with
  | none => some (min score 1)
  | some v =>
    match py_len v with
    | none => none
    | some n => some (min (if 2 < n then score + 0.1 else score) 1)

/-- `_calculate_relevance_score(interaction)`: base-plus-type bonus, then the
entity bonus `min(len(entities) * 0.1, 0.3)` if an `'entities'` key is present,
then the rich-context bonus, capped at `1.0`. -/
def calculate_relevance_score (i : PyDict) : Option ℚ :=
  match alookup i "entities" with
  | none => context_rich_step i (interaction_type_base i)
  | some v =>
    match py_len v with
    | none => none
    | some n => context_rich_step i (interaction_type_base i + min ((n : ℚ) * 0.1) 0.3)

/-- The descending `(relevance_score, timestamp)` order used by
`sorted(entries, key=lambda x: (x['relevance_score'], x['timestamp']), reverse=True)`. -/
def entry_ge (a b : MemoryEntry) : Prop :=
  b.relevance_score < a.relevance_score ∨
    (b.relevance_score = a.relevance_score ∧ b.timestamp ≤ a.timestamp)

instance : DecidableRel entry_ge := fun a b =>
  inferInstanceAs (Decidable (b.relevance_score < a.relevance_score ∨
    (b.relevance_score = a.relevance_score ∧ b.timestamp ≤ a.timestamp)))

instance : IsTotal MemoryEntry entry_ge where
  total a b := by
    rcases lt_trichotomy a.relevance_score b.relevance_score with h | h | h
    · exact Or.inr (Or.inl h)
    · rcases le_total b.timestamp a.timestamp with h2 | h2
      · exact Or.inl (Or.inr ⟨h.symm, h2⟩)
      · exact Or.inr (Or.inr ⟨h, h2⟩)
    · exact Or.inl (Or.inl h)

instance : IsTrans MemoryEntry entry_ge where
  trans a b c hab hbc := by
    rcases hab with h1 | ⟨h1, h1'⟩ <;> rcases hbc with h2 | ⟨h2, h2'⟩
    · exact Or.inl (h2.trans h1)
    · exact Or.inl (lt_of_eq_of_lt h2 h1)
    · exact Or.inl (lt_of_lt_of_eq h2 h1)
    · exact Or.inr ⟨h2.trans h1, h2'.trans h1'⟩

/-- The descending timestamp order used by
`sorted(entries, key=lambda x: x['timestamp'], reverse=True)`. -/
def ts_ge (a b : MemoryEntry) : Prop := b.timestamp ≤ a.timestamp

instance : DecidableRel ts_ge := fun a b =>
  inferInstanceAs (Decidable (b.timestamp ≤ a.timestamp))

instance : IsTotal MemoryEntry ts_ge where
  total a b := le_total b.timestamp a.timestamp

instance : IsTrans MemoryEntry ts_ge where
  trans _ _ _ hab hbc := le_trans hbc hab

/-- `_update_context_summary`: recompute the derived summary from the 20
most-recent entries; `recent_intents` is `[-5:]` of the intents collected while
walking those entries in most-recent-first order. -/
def update_context_summary (um : UserMemory) : UserMemory :=
  if um.entries.isEmpty then um
  else
    let recent_entries := (um.entries.insertionSort ts_ge).take 20
    let intents := recent_entries.filterMap (fun e => alookup e.data "intent")
    { um with
      context_summary :=
        { total_interactions := um.entries.length
          recent_interactions := recent_entries.length
          recent_intents := intents.drop (intents.length - 5) } }

/-- The `MemoryEntry` record built at the top of `store_interaction`. -/
def mk_memory_entry (now : Int) (entry_id : ℕ) (req : MemoryRequest) (score : ℚ) :
    MemoryEntry :=
  { id := entry_id
    user_id := req.user_id
    session_id := req.session_id
    timestamp := now
    interaction_type := (alookup req.interaction "type").getD (JVal.str "unknown")
    data := req.interaction
    context := req.context.getD []
    relevance_score := score }

/-- The fresh aggregate created when `request.user_id not in self.memory_storage`. -/
def fresh_user_memory (u : String) (now : Int) : UserMemory :=
  { user_id := u
    created_at := now
    last_interaction := now
    entries := []
    preferences := []
    context_summary := { total_interactions := 0, recent_interactions := 0, recent_intents := [] } }

/-- `store_interaction(request)`: build the entry (computing its relevance
score — a `TypeError` there is caught and reported as a failed response with
the store unchanged), append it to the user's aggregate (created if absent),
truncate to the `max_memory_entries` best entries by
`(relevance_score desc, timestamp desc)` when over capacity, and recompute the
context summary.  Returns the new store and the created entry. -/
def store_interaction (max_memory_entries : ℕ) (st : MemoryStore) (now : Int)
    (entry_id : ℕ) (req : MemoryRequest) : MemoryStore × Option MemoryEntry :=
  match calculate_relevance_score req.interaction with
  | none => (st, none)
  | some score =>
    let entry := mk_memory_entry now entry_id req score
    let um0 := (alookup st req.user_id).getD (fresh_user_memory req.user_id now)
    let um1 := { um0 with entries := um0.entries ++ [entry], last_interaction := now }
    let um2 :=
      if max_memory_entries < um1.entries.length then
        { um1 with
          entries := (um1.entries.insertionSort entry_ge).take max_memory_entries }
      else um1
    (aset st req.user_id (update_context_summary um2), some entry)

/-- A sequence of `store_interaction` calls, each given as `(now, entry_id, request)`. -/
def store_n (max_memory_entries : ℕ) : MemoryStore → List (Int × ℕ × MemoryRequest) → MemoryStore
  | st, [] => st
  | st, c :: cs => store_n max_memory_entries (store_interaction max_memory_entries st c.1 c.2.1 c.2.2).1 cs

/-- The number of entries currently stored for a user. -/
def user_entry_count (st : MemoryStore) (u : String) : ℕ :=
  match alookup st u with
  | some um => um.entries.length
  | none => 0

/-- `_cleanup_old_entries`: drop every entry whose timestamp is not strictly
newer than `now - retention_days` (in seconds), then drop every user aggregate
left with no entries. -/
def cleanup_old_entries (st : MemoryStore) (now : Int) (retention_days : Int) : MemoryStore :=
  let cutoff := now - retention_days * 86400
  (st.map (fun p =>
    (p.1, { p.2 with entries := p.2.entries.filter (fun e => decide (cutoff < e.timestamp)) }))).filter
    (fun p => !p.2.entries.isEmpty)

/-! ### Text search (`search_user_memory` / `_calculate_search_score`) -/

/-- One escaped character of `json.dumps` output (quotes and backslashes). -/
def esc_char (c : Char) : List Char :=
  if c = '\"' then ['\\', '\"'] else if c = '\\' then ['\\', '\\'] else [c]

/-- Left brace, kept out of string literals. -/
def lbrace : Char := Char.ofNat 123

/-- Right brace. -/
def rbrace : Char := Char.ofNat 125

mutual

/-- `json.dumps(v, ensure_ascii=False)` with the default separators `', '` and `': '`. -/
def dumps : JVal → List Char
  | .str s => '\"' :: (s.toList.flatMap esc_char) ++ ['\"']
  | .num n => (toString n).toList
  | .bool b => if b then "true".toList else "false".toList
  | .null => "null".toList
  | .arr l => '[' :: dumps_list l ++ [']']
  | .obj l => lbrace :: dumps_obj l ++ [rbrace]

/-- Serialize the elements of a JSON array, `', '`-separated. -/
def dumps_list : List JVal → List Char
  | [] => []
  | [x] => dumps x
  | x :: y :: xs => dumps x ++ ", ".toList ++ dumps_list (y :: xs)

/-- Serialize the bindings of a JSON object, `', '`-separated, each as `"key": value`. -/
def dumps_obj : List (String × JVal) → List Char
  | [] => []
  | [(k, v)] => '\"' :: (k.toList.flatMap esc_char) ++ ['\"'] ++ ": ".toList ++ dumps v
  | (k, v) :: y :: xs =>
      '\"' :: (k.toList.flatMap esc_char) ++ ['\"'] ++ ": ".toList ++ dumps v ++
        ", ".toList ++ dumps_obj (y :: xs)

end

/-- Python `str.lower()` (restricted to ASCII case mapping). -/
def lower_of (l : List Char) : List Char := l.map Char.toLower

/-- Python `needle in hay` on strings: substring test. -/
def is_substr (needle hay : List Char) : Bool :=
  (List.range (hay.length + 1)).any (fun i => needle.isPrefixOf (hay.drop i))

/-- Accumulator for `split_ws`. -/
def split_ws_aux : List Char → List Char → List (List Char)
  | [], acc => if acc.isEmpty then [] else [acc.reverse]
  | c :: cs, acc =>
    if c.isWhitespace then
      if acc.isEmpty then split_ws_aux cs [] else acc.reverse :: split_ws_aux cs []
    else split_ws_aux cs (c :: acc)

/-- Python `str.split()` with no argument: split on whitespace runs, no empty tokens. -/
def split_ws (l : List Char) : List (List Char) := split_ws_aux l []

/-- `json.dumps(entry.get('data', {}), ensure_ascii=False).lower()`. -/
def entry_data_text (e : MemoryEntry) : List Char := lower_of (dumps (JVal.obj e.data))

/-- `json.dumps(entry.get('context', {}), ensure_ascii=False).lower()`. -/
def entry_context_text (e : MemoryEntry) : List Char := lower_of (dumps (JVal.obj e.context))

/-- `_calculate_search_score(entry, query)` (the query is already lower-cased by
the caller): `+1.0` / `+0.5` for a full-query hit in the serialized data /
context, `+0.3` / `+0.1` per whitespace token hit, all multiplied by the
entry's stored relevance score. -/
def calculate_search_score (e : MemoryEntry) (query : List Char) : ℚ :=
  let data_text := entry_data_text e
  let context_text := entry_context_text e
  let score : ℚ :=
    (if is_substr query data_text then 1.0 else 0) +
      (if is_substr query context_text then 0.5 else 0)
  let score := score +
    ((split_ws query).map (fun word =>
      (if is_substr word data_text then (0.3 : ℚ) else 0) +
        (if is_substr word context_text then 0.1 else 0))).sum
  score * e.relevance_score

/-- The descending `search_score` order of `sorted(..., key=lambda x: x['search_score'], reverse=True)`. -/
def search_ge (a b : MemoryEntry × ℚ) : Prop := b.2 ≤ a.2

instance : DecidableRel search_ge := fun a b => inferInstanceAs (Decidable (b.2 ≤ a.2))

instance : IsTotal (MemoryEntry × ℚ) search_ge where
  total a b := le_total b.2 a.2

instance : IsTrans (MemoryEntry × ℚ) search_ge where
  trans _ _ _ hab hbc := le_trans hbc hab

/-- `search_user_memory(user_id, query, limit)`: keep the entries whose search
score is positive, sort them by score descending, return the first `limit`. -/
def search_user_memory (st : MemoryStore) (user_id : String) (query : List Char)
    (limit : ℕ) : List MemoryEntry :=
  match alookup st user_id with
  | none => []
  | some um =>
    let query_lower := lower_of query
    let matching := um.entries.filterMap (fun e =>
      let score := calculate_search_score e query_lower
      if 0 < score then some (e, score) else none)
    ((matching.insertionSort search_ge).take limit).map Prod.fst

/-! ### Session store data model (`session_service.py`) -/

/-- One session record (`session_data` in `create_session`). -/
structure SessionData where
  session_id : String
  user_id : String
  created_at : Int
  last_activity : Int
  user_data : PyDict
  context : PyDict
  interaction_count : ℕ
  status : String

/-- `active_sessions`: a dict keyed by `session_id`. -/
abbrev SessionStore := List (String × SessionData)

/-- The `created_at` sorting key used by quota eviction
(`key=lambda sid: datetime.fromisoformat(self.active_sessions[sid]['created_at'])`). -/
def created_key (st : SessionStore) (sid : String) : Int :=
  match alookup st sid with
  | some sd => sd.created_at
  | none => 0

/-- The session ids belonging to a user, in store (insertion) order. -/
def user_session_ids (st : SessionStore) (uid : String) : List String :=
  (st.filter (fun p => p.2.user_id = uid)).map Prod.fst

/-- Python `min(xs, key=key)`: the first element with the least key. -/
def py_min_by (key : String → Int) : List String → Option String
  | [] => none
  | x :: xs => some (xs.foldl (fun acc y => if key y < key acc then y else acc) x)

/-- `create_session(user_id, user_data)`: if the user already has at least
`max_sessions_per_user` sessions, delete the one with the least `created_at`;
then insert a fresh record with `created_at = last_activity = now`,
`interaction_count = 0` and `status = 'active'`. -/
def create_session (st : SessionStore) (now : Int) (new_sid : String) (uid : String)
    (user_data : PyDict) (max_sessions_per_user : ℕ) : SessionStore × SessionData :=
  let user_sessions := user_session_ids st uid
  let st1 :=
    if max_sessions_per_user ≤ user_sessions.length then
      match py_min_by (created_key st) user_sessions with
      | some oldest => aerase st oldest
      | none => st
    else st
  let sd : SessionData :=
    { session_id := new_sid
      user_id := uid
      created_at := now
      last_activity := now
      user_data := user_data
      context := []
      interaction_count := 0
      status := "active" }
  (aset st1 new_sid sd, sd)

/-- `get_session(session_id)`: `None` when absent; when the record's
`last_activity` is more than `session_timeout` seconds old it is deleted and
`None` is returned; otherwise the record is returned unchanged. -/
def get_session (st : SessionStore) (now : Int) (session_timeout : Int)
    (sid : String) : Option SessionData × SessionStore :=
  match alookup st sid with
  | none => (none, st)
  | some sd =>
    if session_timeout < now - sd.last_activity then (none, aerase st sid)
    else (some sd, st)

/-- `update_session_activity(session_id, context)`: `False` when the session is
absent; otherwise set `last_activity = now`, increment `interaction_count`,
and—when a non-empty context patch is given (`if context:`)—`dict.update` it
into the session's context. -/
def update_session_activity (st : SessionStore) (now : Int) (sid : String)
    (context : Option PyDict) : Bool × SessionStore :=
  match alookup st sid with
  | none => (false, st)
  | some sd =>
    let sd1 := { sd with last_activity := now, interaction_count := sd.interaction_count + 1 }
    let sd2 :=
      match context with
      | some c => if c.isEmpty then sd1 else { sd1 with context := dict_update sd1.context c }
      | none => sd1
    (true, aset st sid sd2)

/-! ### Definitions taken from the specification's words (for refinement claims) -/

/-- Modelled from the spec: the type bonus as the claim words it — `+0.3` if the
payload's type is one of purchase/support/form_fill, `+0.2` if one of
question/search. -/
def spec_type_bonus (payload : PyDict) : ℚ :=
  (if py_type_tag payload = some "purchase" ∨ py_type_tag payload = some "support" ∨
      py_type_tag payload = some "form_fill" then (0.3 : ℚ) else 0) +
    (if py_type_tag payload = some "question" ∨ py_type_tag payload = some "search" then
      (0.2 : ℚ) else 0)

/-- Modelled from the spec: `min(0.1 × count(entities), 0.3)` when the payload
has an `entities` list. -/
def spec_entity_bonus (payload : PyDict) : ℚ :=
  match alookup payload "entities" with
  | some (JVal.arr l) => min ((l.length : ℚ) * 0.1) 0.3
  | _ => 0

/-- Modelled from the spec (as amended): `+0.1` when the payload's own
`context` entry is a dict with more than 2 keys. -/
def spec_payload_context_bonus (payload : PyDict) : ℚ :=
  match alookup payload "context" with
  | some (JVal.obj d) => if 2 < d.length then (0.1 : ℚ) else 0
  | _ => 0

/-- The relevance-score formula exactly as claim C1 states it: the final `+0.1`
bonus reads the `context` **argument of the store call**, and the result is
clamped to `[0, 1]`. -/
def spec_relevance_C1 (payload : PyDict) (store_context : PyDict) : ℚ :=
  max 0 (min (0.5 + spec_type_bonus payload + spec_entity_bonus payload +
    (if 2 < store_context.length then (0.1 : ℚ) else 0)) 1)

/-- The amended relevance-score formula: identical to the claim's, except that
the `+0.1` bonus reads the payload's own `context` entry. -/
def spec_relevance_amended (payload : PyDict) : ℚ :=
  max 0 (min (0.5 + spec_type_bonus payload + spec_entity_bonus payload +
    spec_payload_context_bonus payload) 1)

/-- The payload's `entities` value, when present, is an actual list. -/
def entities_wf (payload : PyDict) : Prop :=
  ∀ v, alookup payload "entities" = some v → ∃ l, v = JVal.arr l

/-- The payload's `context` value, when present, is an actual dict. -/
def payload_context_wf (payload : PyDict) : Prop :=
  ∀ v, alookup payload "context" = some v → ∃ d, v = JVal.obj d

/-! ### Concrete instances used to exercise the theorems -/

/-- A payload with a non-bonus type and no `entities`/`context` keys. -/
def c1_payload : PyDict := [("type", JVal.str "view")]

/-- A store call whose `context` argument has 3 keys while the payload itself
carries no `context` key. -/
def c1_request : MemoryRequest :=
  { user_id := "u"
    session_id := none
    interaction := c1_payload
    context := some [("a", JVal.str "1"), ("b", JVal.str "2"), ("c", JVal.str "3")] }

/-- The entry `store_interaction` builds for `c1_request` (relevance 0.5). -/
def c1_entry : MemoryEntry := mk_memory_entry 0 0 c1_request 0.5

/-- A minimal store call (empty payload, no context). -/
def c2_request : MemoryRequest :=
  { user_id := "u", session_id := none, interaction := [], context := none }

/-- Three successive store calls for user `u`. -/
def c2_calls : List (Int × ℕ × MemoryRequest) :=
  [(0, 0, c2_request), (1, 1, c2_request), (2, 2, c2_request)]

/-- An entry already stored for user `u`. -/
def c2_entry0 : MemoryEntry :=
  { id := 0, user_id := "u", session_id := none, timestamp := 0
    interaction_type := JVal.str "unknown", data := [], context := [], relevance_score := 0.5 }

/-- The aggregate holding `c2_entry0`. -/
def c2_user : UserMemory :=
  { user_id := "u", created_at := 0, last_interaction := 0, entries := [c2_entry0]
    preferences := []
    context_summary := { total_interactions := 1, recent_interactions := 1, recent_intents := [] } }

/-- A memory store already holding one entry for user `u`. -/
def c2_store1 : MemoryStore := [("u", c2_user)]

/-- A session whose `last_activity` is at time 0. -/
def c3_session : SessionData :=
  { session_id := "s", user_id := "u1", created_at := 0, last_activity := 0
    user_data := [], context := [], interaction_count := 0, status := "active" }

/-- A session store holding only `c3_session`. -/
def c3_store : SessionStore := [("s", c3_session)]

/-- A session record for quota-eviction scenarios: the `last_activity` order is
deliberately the reverse of the `created_at` order, so the two eviction keys
disagree. -/
def c4_sd (sid uid : String) (t : Int) : SessionData :=
  { session_id := sid, user_id := uid, created_at := t, last_activity := 1000 - t
    user_data := [], context := [], interaction_count := 0, status := "active" }

/-- A store in which user `u1` already has 5 sessions (created at times 1..5)
and user `u2` has one. -/
def c4_store : SessionStore :=
  [("s1", c4_sd "s1" "u1" 1), ("s2", c4_sd "s2" "u1" 2), ("s3", c4_sd "s3" "u1" 3),
    ("s4", c4_sd "s4" "u1" 4), ("s5", c4_sd "s5" "u1" 5), ("x", c4_sd "x" "u2" 0)]

/-- An entry whose serialized payload is `{"msg": "hello"}` (lower-cased). -/
def c5_entry : MemoryEntry :=
  { id := 0, user_id := "u", session_id := none, timestamp := 0
    interaction_type := JVal.str "message", data := [("msg", JVal.str "Hello")]
    context := [], relevance_score := 0.5 }

/-- The aggregate holding `c5_entry`. -/
def c5_user : UserMemory :=
  { user_id := "u", created_at := 0, last_interaction := 0, entries := [c5_entry]
    preferences := []
    context_summary := { total_interactions := 1, recent_interactions := 1, recent_intents := [] } }

/-- A memory store with one searchable entry for user `u`. -/
def c5_store : MemoryStore := [("u", c5_user)]

/-- The session created for the C6 scenario (`create` at time 0 in an empty store). -/
def c6_store0 : SessionStore := (create_session [] 0 "s1" "u1" [] 5).1

/-- The record `create_session` put into `c6_store0`. -/
def c6_sd : SessionData :=
  { session_id := "s1", user_id := "u1", created_at := 0, last_activity := 0
    user_data := [], context := [], interaction_count := 0, status := "active" }

/-- The context patch of the C6 scenario. -/
def c6_patch : PyDict := [("topic", JVal.str "billing")]

/-- The `now` of the retention-sweep scenario: day 31. -/
def c7_now : Int := 31 * 86400

/-- An entry exactly 29 days old at `c7_now`. -/
def c7_e29 : MemoryEntry :=
  { id := 29, user_id := "u", session_id := none, timestamp := c7_now - 29 * 86400
    interaction_type := JVal.str "unknown", data := [], context := [], relevance_score := 0.5 }

/-- An entry exactly 31 days old at `c7_now`. -/
def c7_e31 : MemoryEntry :=
  { id := 31, user_id := "u", session_id := none, timestamp := c7_now - 31 * 86400
    interaction_type := JVal.str "unknown", data := [], context := [], relevance_score := 0.5 }

/-- The aggregate holding the 29- and 31-day-old entries. -/
def c7_user : UserMemory :=
  { user_id := "u", created_at := 0, last_interaction := 0, entries := [c7_e29, c7_e31]
    preferences := []
    context_summary := { total_interactions := 2, recent_interactions := 2, recent_intents := [] } }

/-- The memory store swept in the C7 scenario. -/
def c7_store : MemoryStore := [("u", c7_user)]

/-- An entry with an `intent` key in its payload, at the given timestamp. -/
def c8_entry (i : ℕ) (intent : String) : MemoryEntry :=
  { id := i, user_id := "u", session_id := none, timestamp := (i : Int)
    interaction_type := JVal.str "unknown", data := [("intent", JVal.str intent)]
    context := [], relevance_score := 0.5 }

/-- The aggregate holding five entries with intents i1..i5 at times 1..5. -/
def c8_user : UserMemory :=
  { user_id := "u", created_at := 0, last_interaction := 5
    entries := [c8_entry 1 "i1", c8_entry 2 "i2", c8_entry 3 "i3", c8_entry 4 "i4", c8_entry 5 "i5"]
    preferences := []
    context_summary := { total_interactions := 5, recent_interactions := 5, recent_intents := [] } }

/-- The memory store before the sixth store call of the C8 scenario. -/
def c8_store : MemoryStore := [("u", c8_user)]

/-- The sixth store call, whose payload carries intent i6. -/
def c8_request : MemoryRequest :=
  { user_id := "u", session_id := none, interaction := [("intent", JVal.str "i6")], context := none }

/-- Extract the string of a `JVal.str` (used to compare intent lists). -/
def jval_str : JVal → String
  | .str s => s
  | _ => ""

/-! ### Association-list lemmas -/

theorem alookup_aset_self {β : Type} (d : List (String × β)) (k : String) (v : β) :
    alookup (aset d k v) k = some v := by
  induction d with
  | nil => simp [aset, alookup]
  | cons p d ih =>
    by_cases h : p.1 = k
    · simp [aset, h, alookup]
    · simp [aset, h, alookup, ih]

theorem alookup_aset_other {β : Type} (d : List (String × β)) (k k' : String) (v : β)
    (h : k' ≠ k) : alookup (aset d k v) k' = alookup d k' := by
  induction d with
  | nil => simp [aset, alookup, Ne.symm h]
  | cons p d ih =>
    by_cases hp : p.1 = k
    · have hpk : p.1 ≠ k' := hp ▸ Ne.symm h
      simp [aset, hp, alookup, hpk, Ne.symm h]
    · by_cases hq : p.1 = k'
      · simp [aset, hp, alookup, hq, h]
      · simp [aset, hp, alookup, hq, ih]

theorem alookup_eq_none {β : Type} (d : List (String × β)) (k : String)
    (h : k ∉ d.map Prod.fst) : alookup d k = none := by
  induction d with
  | nil => rfl
  | cons p d ih =>
    simp only [List.map_cons, List.mem_cons] at h
    push_neg at h
    have hp : p.1 ≠ k := fun hh => h.1 hh.symm
    simp [alookup, hp, ih h.2]

theorem alookup_aerase_self {β : Type} (d : List (String × β)) (k : String)
    (h : (d.map Prod.fst).Nodup) : alookup (aerase d k) k = none := by
  induction d with
  | nil => rfl
  | cons p d ih =>
    simp only [List.map_cons, List.nodup_cons] at h
    by_cases hp : p.1 = k
    · simp only [aerase, if_pos hp]
      exact alookup_eq_none d k (hp ▸ h.1)
    · simp [aerase, hp, alookup, ih h.2]

theorem alookup_aerase_other {β : Type} (d : List (String × β)) (k k' : String)
    (h : k' ≠ k) : alookup (aerase d k) k' = alookup d k' := by
  induction d with
  | nil => rfl
  | cons p d ih =>
    by_cases hp : p.1 = k
    · have hpk : p.1 ≠ k' := hp ▸ Ne.symm h
      simp [aerase, hp, alookup, hpk, Ne.symm h]
    · by_cases hq : p.1 = k'
      · simp [aerase, hp, alookup, hq, h]
      · simp [aerase, hp, alookup, hq, ih]

theorem alookup_dict_update {β : Type} (d patch : List (String × β)) (k : String)
    (hp : (patch.map Prod.fst).Nodup) :
    alookup (dict_update d patch) k = (alookup patch k).or (alookup d k) := by
  induction patch generalizing d with
  | nil => simp [dict_update, alookup]
  | cons q patch ih =>
    simp only [List.map_cons, List.nodup_cons] at hp
    have step : dict_update d (q :: patch) = dict_update (aset d q.1 q.2) patch := rfl
    rw [step, ih _ hp.2]
    by_cases hk : q.1 = k
    · subst hk
      rw [alookup_aset_self, alookup_eq_none patch q.1 hp.1]
      simp [alookup]
    · rw [alookup_aset_other d q.1 k q.2 (fun hh => hk hh.symm)]
      simp [alookup, hk]

theorem alookup_isSome_of_mem {β : Type} (d : List (String × β)) (p : String × β)
    (h : p ∈ d) : (alookup d p.1).isSome := by
  induction d with
  | nil => simp at h
  | cons q d ih =>
    rcases List.mem_cons.mp h with h | h
    · subst h; simp [alookup]
    · by_cases hq : q.1 = p.1
      · simp [alookup, hq]
      · simp [alookup, hq, ih h]

/-! ### Python `min(..., key=...)` lemmas -/

theorem foldl_min_mem (key : String → Int) (xs : List String) (acc : String) :
    xs.foldl (fun a y => if key y < key a then y else a) acc = acc ∨
      xs.foldl (fun a y => if key y < key a then y else a) acc ∈ xs := by
  induction xs generalizing acc with
  | nil => exact Or.inl rfl
  | cons x xs ih =>
    rw [List.foldl_cons]
    rcases ih (if key x < key acc then x else acc) with h | h
    · rw [h]
      by_cases hx : key x < key acc
      · rw [if_pos hx]; exact Or.inr (List.mem_cons_self x xs)
      · rw [if_neg hx]; exact Or.inl rfl
    · exact Or.inr (List.mem_cons_of_mem x h)

theorem foldl_min_le_acc (key : String → Int) (xs : List String) (acc : String) :
    key (xs.foldl (fun a y => if key y < key a then y else a) acc) ≤ key acc := by
  induction xs generalizing acc with
  | nil => exact le_refl _
  | cons x xs ih =>
    rw [List.foldl_cons]
    refine le_trans (ih _) ?_
    by_cases hx : key x < key acc
    · rw [if_pos hx]; exact le_of_lt hx
    · rw [if_neg hx]

theorem foldl_min_le_mem (key : String → Int) (xs : List String) (acc : String)
    (z : String) (hz : z ∈ xs) :
    key (xs.foldl (fun a y => if key y < key a then y else a) acc) ≤ key z := by
  induction xs generalizing acc with
  | nil => simp at hz
  | cons x xs ih =>
    rw [List.foldl_cons]
    rcases List.mem_cons.mp hz with h | h
    · refine le_trans (foldl_min_le_acc key xs _) ?_
      subst h
      by_cases hx : key z < key acc
      · rw [if_pos hx]
      · rw [if_neg hx]; exact le_of_not_lt hx
    · exact ih _ h

/-! ### Memory-store lemmas -/

theorem update_context_summary_entries (um : UserMemory) :
    (update_context_summary um).entries = um.entries := by
  unfold update_context_summary
  split <;> rfl

theorem user_entry_count_some (st : MemoryStore) (u : String) (um : UserMemory)
    (h : alookup st u = some um) : user_entry_count st u = um.entries.length := by
  simp [user_entry_count, h]

theorem user_entry_count_none (st : MemoryStore) (u : String)
    (h : alookup st u = none) : user_entry_count st u = 0 := by
  simp [user_entry_count, h]

theorem store_interaction_count_step (M : ℕ) (st : MemoryStore) (now : Int) (eid : ℕ)
    (req : MemoryRequest) (score : ℚ)
    (hq : calculate_relevance_score req.interaction = some score) :
    user_entry_count (store_interaction M st now eid req).1 req.user_id =
      min (user_entry_count st req.user_id + 1) M := by
  unfold store_interaction
  simp only [hq]
  rw [user_entry_count_some _ _ _ (alookup_aset_self st req.user_id _),
    update_context_summary_entries]
  cases halo : alookup st req.user_id with
  | none =>
    rw [user_entry_count_none st _ halo]
    simp only [Option.getD_none, fresh_user_memory]
    split
    · rename_i hlt
      simp only [List.length_take, List.length_insertionSort, List.length_append,
        List.length_cons, List.length_nil] at hlt ⊢
      omega
    · rename_i hlt
      simp only [List.length_append, List.length_cons, List.length_nil] at hlt ⊢
      omega
  | some um =>
    rw [user_entry_count_some st _ um halo]
    simp only [Option.getD_some]
    split
    · rename_i hlt
      simp only [List.length_take, List.length_insertionSort, List.length_append,
        List.length_cons, List.length_nil] at hlt ⊢
      omega
    · rename_i hlt
      simp only [List.length_append, List.length_cons, List.length_nil] at hlt ⊢
      omega

theorem store_n_count (M : ℕ) (u : String) (reqs : List (Int × ℕ × MemoryRequest)) :
    ∀ st : MemoryStore,
      (∀ r ∈ reqs, r.2.2.user_id = u ∧ (calculate_relevance_score r.2.2.interaction).isSome) →
      user_entry_count st u ≤ M →
      user_entry_count (store_n M st reqs) u = min (user_entry_count st u + reqs.length) M := by
  induction reqs with
  | nil =>
    intro st _ hle
    simp only [store_n, List.length_nil]
    omega
  | cons c cs ih =>
    intro st hall hle
    have hc := hall c (List.mem_cons_self c cs)
    obtain ⟨score, hq⟩ := Option.isSome_iff_exists.mp hc.2
    have hstep := store_interaction_count_step M st c.1 c.2.1 c.2.2 score hq
    rw [hc.1] at hstep
    simp only [store_n]
    rw [ih _ (fun r hr => hall r (List.mem_cons_of_mem c hr)) (by rw [hstep]; omega)]
    rw [hstep, List.length_cons]
    omega

theorem store_interaction_trunc (M : ℕ) (st : MemoryStore) (now : Int) (eid : ℕ)
    (req : MemoryRequest) (st' : MemoryStore) (e : MemoryEntry) (um : UserMemory)
    (h : store_interaction M st now eid req = (st', some e))
    (hum : alookup st req.user_id = some um)
    (hover : M < um.entries.length + 1) :
    alookup st' req.user_id = some (update_context_summary
      { um with
        entries := ((um.entries ++ [e]).insertionSort entry_ge).take M
        last_interaction := now }) := by
  unfold store_interaction at h
  cases hq : calculate_relevance_score req.interaction with
  | none => rw [hq] at h; simp at h
  | some score =>
    rw [hq] at h
    simp only [hum, Option.getD_some, List.length_append, List.length_cons,
      List.length_nil, Prod.mk.injEq, Option.some.injEq] at h
    rw [if_pos (by omega : M < um.entries.length + 1)] at h
    rw [← h.1, h.2]
    exact alookup_aset_self st req.user_id _

theorem py_min_by_spec (key : String → Int) (xs : List String) (m : String)
    (h : py_min_by key xs = some m) : m ∈ xs ∧ ∀ y ∈ xs, key m ≤ key y := by
  cases xs with
  | nil => simp [py_min_by] at h
  | cons x xs =>
    simp only [py_min_by, Option.some.injEq] at h
    subst h
    constructor
    · rcases foldl_min_mem key xs x with h | h
      · rw [h]; exact List.mem_cons_self x xs
      · exact List.mem_cons_of_mem x h
    · intro y hy
      rcases List.mem_cons.mp hy with h | h
      · rw [h]; exact foldl_min_le_acc key xs x
      · exact foldl_min_le_mem key xs x y h

/-! ### Claim theorems -/

/-- C2: starting from no aggregate, a sequence of N store calls for a user
(each call succeeding) leaves exactly min(N, max_memory_entries) entries; and
whenever a store call truncates, the kept entries are a permutation-selection
of size max_memory_entries from the appended list in which every kept entry
dominates every dropped entry in the (relevance_score desc, timestamp desc)
order. -/
theorem C2_store_capacity :
    (∀ (M : ℕ) (st : MemoryStore) (u : String) (reqs : List (Int × ℕ × MemoryRequest)),
      alookup st u = none →
      (∀ r ∈ reqs, r.2.2.user_id = u ∧ (calculate_relevance_score r.2.2.interaction).isSome) →
      user_entry_count (store_n M st reqs) u = min reqs.length M) ∧
    (∀ (M : ℕ) (st : MemoryStore) (now : Int) (eid : ℕ) (req : MemoryRequest)
      (st' : MemoryStore) (e : MemoryEntry) (um : UserMemory),
      store_interaction M st now eid req = (st', some e) →
      alookup st req.user_id = some um →
      M < um.entries.length + 1 →
      ∃ um' dropped, alookup st' req.user_id = some um' ∧
        um'.entries.length = M ∧
        List.Perm (um.entries ++ [e]) (um'.entries ++ dropped) ∧
        um'.entries.Sorted entry_ge ∧
        ∀ x ∈ um'.entries, ∀ y ∈ dropped, entry_ge x y) := by
  constructor
  · intro M st u reqs h0 hall
    have hc := store_n_count M u reqs st hall (by rw [user_entry_count_none st u h0]; omega)
    rw [user_entry_count_none st u h0] at hc
    rw [hc]
    omega
  · intro M st now eid req st' e um h hum hover
    have hmem := store_interaction_trunc M st now eid req st' e um h hum hover
    have hlen : ((um.entries ++ [e]).insertionSort entry_ge).length =
        um.entries.length + 1 := by
      rw [List.length_insertionSort, List.length_append, List.length_cons, List.length_nil]
    refine ⟨_, ((um.entries ++ [e]).insertionSort entry_ge).drop M, hmem, ?_, ?_, ?_, ?_⟩
    · simp only [update_context_summary_entries]
      rw [List.length_take, hlen]
      omega
    · simp only [update_context_summary_entries]
      rw [List.take_append_drop]
      exact (List.perm_insertionSort entry_ge _).symm
    · simp only [update_context_summary_entries]
      exact (List.sorted_insertionSort entry_ge _).sublist (List.take_sublist M _)
    · simp only [update_context_summary_entries]
      have hs : ((um.entries ++ [e]).insertionSort entry_ge).Sorted entry_ge :=
        List.sorted_insertionSort entry_ge _
      rw [← List.take_append_drop M ((um.entries ++ [e]).insertionSort entry_ge)] at hs
      intro x hx y hy
      exact (List.pairwise_append.mp hs).2.2 x hx y hy

/-- Witness for C2: three stores with cap 2 leave 2 entries, and a store into a
full one-entry store with cap 1 truncates to a dominating single entry. -/
theorem C2_store_capacity_witness :
    user_entry_count (store_n 2 [] c2_calls) "u" = min 3 2 ∧
    (∃ um' dropped, alookup (store_interaction 1 c2_store1 5 1 c2_request).1 "u" = some um' ∧
      um'.entries.length = 1 ∧
      List.Perm (c2_user.entries ++ [mk_memory_entry 5 1 c2_request 0.5]) (um'.entries ++ dropped) ∧
      um'.entries.Sorted entry_ge ∧
      ∀ x ∈ um'.entries, ∀ y ∈ dropped, entry_ge x y) := by
  constructor
  · exact C2_store_capacity.1 2 [] "u" c2_calls rfl (by
      intro r hr
      rcases List.mem_cons.mp hr with h | hr
      · rw [h]; exact ⟨rfl, by with_unfolding_all decide⟩
      rcases List.mem_cons.mp hr with h | hr
      · rw [h]; exact ⟨rfl, by with_unfolding_all decide⟩
      rcases List.mem_cons.mp hr with h | hr
      · rw [h]; exact ⟨rfl, by with_unfolding_all decide⟩
      · simp at hr)
  · exact C2_store_capacity.2 1 c2_store1 5 1 c2_request
      (store_interaction 1 c2_store1 5 1 c2_request).1
      (mk_memory_entry 5 1 c2_request 0.5) c2_user
      (by with_unfolding_all rfl) rfl (by with_unfolding_all decide)

theorem user_session_ids_lookup (st : SessionStore) (uid sid : String)
    (h : sid ∈ user_session_ids st uid) : (alookup st sid).isSome := by
  unfold user_session_ids at h
  obtain ⟨p, hp, hps⟩ := List.mem_map.mp h
  exact hps ▸ alookup_isSome_of_mem st p (List.mem_of_mem_filter hp)

/-- C3 counterexample: with `last_activity = 0`, `now = session_timeout = 3600`,
the code's strict `>` test keeps the session, so `get` returns a record with
`now − last_activity ≥ session_timeout`, contradicting the claim. -/
theorem C3_boundary_counterexample :
    (get_session c3_store 3600 3600 "s").1 = some c3_session ∧
    3600 ≤ (3600 : Int) - c3_session.last_activity := by
  exact ⟨by with_unfolding_all rfl, by decide⟩

/-- C3 (amended): `get` never returns a record with
`now − last_activity > session_timeout` (strictly); a stored record that is
strictly older than the timeout is deleted and `None` is returned.  A record
aged exactly `session_timeout` is still returned. -/
theorem C3_get_lazy_expiry (st : SessionStore) (now timeout : Int) (sid : String)
    (hkeys : (st.map Prod.fst).Nodup) :
    (∀ sd, (get_session st now timeout sid).1 = some sd →
      now - sd.last_activity ≤ timeout) ∧
    (∀ sd, alookup st sid = some sd → timeout < now - sd.last_activity →
      (get_session st now timeout sid).1 = none ∧
      alookup (get_session st now timeout sid).2 sid = none) := by
  constructor
  · intro sd h
    cases halo : alookup st sid with
    | none => simp [get_session, halo] at h
    | some sd0 =>
      simp only [get_session, halo] at h
      by_cases hexp : timeout < now - sd0.last_activity
      · rw [if_pos hexp] at h
        simp at h
      · rw [if_neg hexp] at h
        simp only [Option.some.injEq] at h
        rw [← h]
        exact le_of_not_lt hexp
  · intro sd halo hexp
    simp only [get_session, halo, if_pos hexp]
    constructor
    · simp
    · exact alookup_aerase_self st sid hkeys

/-- Witness for C3 (amended): a session 7201 seconds stale is deleted by `get`
and `None` is returned. -/
theorem C3_get_lazy_expiry_witness :
    (get_session c3_store 7201 3600 "s").1 = none ∧
    alookup (get_session c3_store 7201 3600 "s").2 "s" = none :=
  (C3_get_lazy_expiry c3_store 7201 3600 "s" (by decide)).2 c3_session rfl (by decide)

/-- C4: creating a session for a user who already has at least
`max_sessions_per_user` sessions evicts exactly one session — one of that
user's sessions with the least `created_at` — keeps every other session
untouched, and stores the new session with `created_at = now`. -/
theorem C4_create_quota_eviction (st : SessionStore) (now : Int) (new_sid uid : String)
    (ud : PyDict) (M : ℕ) (hM : 0 < M)
    (hkeys : (st.map Prod.fst).Nodup)
    (hcount : M ≤ (user_session_ids st uid).length)
    (hfresh : alookup st new_sid = none) :
    ∃ oldest, oldest ∈ user_session_ids st uid ∧
      (∀ sid ∈ user_session_ids st uid, created_key st oldest ≤ created_key st sid) ∧
      alookup (create_session st now new_sid uid ud M).1 oldest = none ∧
      alookup (create_session st now new_sid uid ud M).1 new_sid =
        some (create_session st now new_sid uid ud M).2 ∧
      (create_session st now new_sid uid ud M).2.created_at = now ∧
      ∀ sid, sid ≠ oldest → sid ≠ new_sid →
        alookup (create_session st now new_sid uid ud M).1 sid = alookup st sid := by
  have hne : user_session_ids st uid ≠ [] := by
    intro h0
    rw [h0] at hcount
    simp at hcount
    omega
  obtain ⟨x, xs, hxs⟩ := List.exists_cons_of_ne_nil hne
  have hsome : (py_min_by (created_key st) (user_session_ids st uid)).isSome := by
    rw [hxs]; rfl
  obtain ⟨m, hmin⟩ := Option.isSome_iff_exists.mp hsome
  obtain ⟨hm_mem, hm_min⟩ := py_min_by_spec (created_key st) _ m hmin
  have hm_ne : m ≠ new_sid := by
    intro h0
    have := user_session_ids_lookup st uid m hm_mem
    rw [h0, hfresh] at this
    simp at this
  have h2 : (create_session st now new_sid uid ud M).2 =
      { session_id := new_sid, user_id := uid, created_at := now, last_activity := now,
        user_data := ud, context := [], interaction_count := 0, status := "active" } := rfl
  have h1 : (create_session st now new_sid uid ud M).1 =
      aset (aerase st m) new_sid
        { session_id := new_sid, user_id := uid, created_at := now, last_activity := now,
          user_data := ud, context := [], interaction_count := 0, status := "active" } := by
    simp only [create_session]
    rw [if_pos hcount, hmin]
  refine ⟨m, hm_mem, hm_min, ?_, ?_, ?_, ?_⟩
  · rw [h1, alookup_aset_other _ _ _ _ hm_ne.symm.symm]
    · exact alookup_aerase_self st m hkeys
  · rw [h1, h2]
    exact alookup_aset_self _ _ _
  · rw [h2]
  · intro sid hm hnew
    rw [h1, alookup_aset_other _ _ _ _ hnew, alookup_aerase_other _ _ _ hm]

/-- Witness for C4: user u1 already has 5 sessions (quota 5); creating s6
evicts exactly the minimal-`created_at` session s1 (even though s1 has the
largest `last_activity`) and keeps s5 (which has the smallest `last_activity`). -/
theorem C4_create_quota_eviction_witness :
    (∃ oldest, oldest ∈ user_session_ids c4_store "u1" ∧
      (∀ sid ∈ user_session_ids c4_store "u1",
        created_key c4_store oldest ≤ created_key c4_store sid) ∧
      alookup (create_session c4_store 10 "s6" "u1" [] 5).1 oldest = none ∧
      alookup (create_session c4_store 10 "s6" "u1" [] 5).1 "s6" =
        some (create_session c4_store 10 "s6" "u1" [] 5).2 ∧
      (create_session c4_store 10 "s6" "u1" [] 5).2.created_at = 10 ∧
      ∀ sid, sid ≠ oldest → sid ≠ "s6" →
        alookup (create_session c4_store 10 "s6" "u1" [] 5).1 sid = alookup c4_store sid) ∧
    (alookup (create_session c4_store 10 "s6" "u1" [] 5).1 "s1").isSome = false ∧
    (alookup (create_session c4_store 10 "s6" "u1" [] 5).1 "s5").isSome = true :=
  ⟨C4_create_quota_eviction c4_store 10 "s6" "u1" [] 5 (by decide) (by decide)
    (by decide) rfl,
    by with_unfolding_all decide, by with_unfolding_all decide⟩

/-- C6: `update_activity` returns false exactly when the session is absent;
otherwise it sets `last_activity = now`, increments `interaction_count` by 1,
and shallow-merges the context patch (patch keys win, other keys are kept). -/
theorem C6_update_activity (st : SessionStore) (now : Int) (sid : String)
    (context : Option PyDict) :
    ((update_session_activity st now sid context).1 = false ↔ alookup st sid = none) ∧
    (∀ sd, alookup st sid = some sd →
      (((context.getD []).map Prod.fst).Nodup) →
      ∃ sd', alookup (update_session_activity st now sid context).2 sid = some sd' ∧
        sd'.last_activity = now ∧
        sd'.interaction_count = sd.interaction_count + 1 ∧
        ∀ k, alookup sd'.context k =
          (alookup (context.getD []) k).or (alookup sd.context k)) := by
  constructor
  · cases halo : alookup st sid with
    | none => simp [update_session_activity, halo]
    | some sd => simp [update_session_activity, halo]
  · intro sd halo hnd
    cases context with
    | none =>
      simp only [update_session_activity, halo]
      refine ⟨_, alookup_aset_self st sid _, rfl, rfl, ?_⟩
      intro k
      simp [alookup]
    | some c =>
      simp only [update_session_activity, halo]
      by_cases hc : c.isEmpty = true
      · have hcel : c = [] := List.isEmpty_iff.mp hc
        subst hcel
        rw [if_pos hc]
        refine ⟨_, alookup_aset_self st sid _, rfl, rfl, ?_⟩
        intro k
        simp [alookup]
      · rw [if_neg hc]
        refine ⟨_, alookup_aset_self st sid _, rfl, rfl, ?_⟩
        intro k
        exact alookup_dict_update sd.context c k (by simpa using hnd)

/-- Witness for C6, the spec's scenario: create a session for u1, update it
with context patch topic ↦ billing; the session then has interaction_count 1
and its context maps topic to billing. -/
theorem C6_update_activity_witness :
    (update_session_activity c6_store0 1 "s1" (some c6_patch)).1 = true ∧
    ∃ sd', alookup (update_session_activity c6_store0 1 "s1" (some c6_patch)).2 "s1" = some sd' ∧
      sd'.last_activity = 1 ∧
      sd'.interaction_count = c6_sd.interaction_count + 1 ∧
      alookup sd'.context "topic" = some (JVal.str "billing") := by
  have h := C6_update_activity c6_store0 1 "s1" (some c6_patch)
  have hl : alookup c6_store0 "s1" = some c6_sd := rfl
  constructor
  · cases hbv : (update_session_activity c6_store0 1 "s1" (some c6_patch)).1 with
    | false =>
      have h0 := h.1.mp hbv
      rw [hl] at h0
      exact absurd h0 (by simp)
    | true => rfl
  · obtain ⟨sd', h1, h2, h3, h4⟩ := h.2 c6_sd hl (by decide)
    refine ⟨sd', h1, h2, h3, ?_⟩
    rw [h4 "topic"]
    rfl

/-- C9 (implicit): `update_activity` performs no expiry check — on a session
still present in the store but already older than the timeout it succeeds,
increments `interaction_count` and resets `last_activity` to now. -/
theorem C9_update_revives_expired (st : SessionStore) (now : Int) (sid : String)
    (sd : SessionData) (timeout : Int)
    (halo : alookup st sid = some sd)
    (hexp : timeout < now - sd.last_activity) :
    (update_session_activity st now sid none).1 = true ∧
    ∃ sd', alookup (update_session_activity st now sid none).2 sid = some sd' ∧
      sd'.interaction_count = sd.interaction_count + 1 ∧
      sd'.last_activity = now := by
  simp only [update_session_activity, halo]
  exact ⟨by simp, _, alookup_aset_self st sid _, rfl, rfl⟩

/-- Witness for C9: a session 7201 seconds stale (timeout 3600) is still
updated successfully. -/
theorem C9_update_revives_expired_witness :
    (update_session_activity c3_store 7201 "s" none).1 = true ∧
    ∃ sd', alookup (update_session_activity c3_store 7201 "s" none).2 "s" = some sd' ∧
      sd'.interaction_count = c3_session.interaction_count + 1 ∧
      sd'.last_activity = 7201 :=
  C9_update_revives_expired c3_store 7201 "s" c3_session 3600 rfl (by decide)

/-- C7: after the retention sweep with retention_days = 30, every surviving
aggregate has a non-empty entry list and every surviving entry is strictly
younger than 30 days (so every entry more than 30 days old is removed); and
every entry strictly younger than 30 days survives under its user. -/
theorem C7_retention_sweep (st : MemoryStore) (now : Int) :
    (∀ p ∈ cleanup_old_entries st now 30, p.2.entries ≠ [] ∧
      ∀ e ∈ p.2.entries, now - e.timestamp < 30 * 86400) ∧
    (∀ p ∈ st, ∀ e ∈ p.2.entries, now - e.timestamp < 30 * 86400 →
      ∃ p' ∈ cleanup_old_entries st now 30, p'.1 = p.1 ∧ e ∈ p'.2.entries) := by
  constructor
  · intro p hp
    unfold cleanup_old_entries at hp
    obtain ⟨hp_mem, hp_ne⟩ := List.mem_filter.mp hp
    obtain ⟨q, hq, hpq⟩ := List.mem_map.mp hp_mem
    constructor
    · simpa using hp_ne
    · intro e he
      rw [← hpq] at he
      have hdec := (List.mem_filter.mp he).2
      simp only [decide_eq_true_eq] at hdec
      omega
  · intro p hp e he hyoung
    have hef : e ∈ p.2.entries.filter (fun e => decide (now - 30 * 86400 < e.timestamp)) :=
      List.mem_filter.mpr ⟨he, by simp only [decide_eq_true_eq]; omega⟩
    refine ⟨(p.1, { p.2 with
      entries := p.2.entries.filter (fun e => decide (now - 30 * 86400 < e.timestamp)) }),
      ?_, rfl, hef⟩
    unfold cleanup_old_entries
    refine List.mem_filter.mpr ⟨?_, ?_⟩
    · exact List.mem_map_of_mem _ hp
    · have hne := List.ne_nil_of_mem hef
      simp [List.isEmpty_iff]
      exact ⟨e, he, by omega⟩

/-- Witness for C7: sweeping a store holding a 29-day-old and a 31-day-old
entry keeps the 29-day-old entry under its user. -/
theorem C7_retention_sweep_witness :
    ∃ p' ∈ cleanup_old_entries c7_store c7_now 30, p'.1 = "u" ∧ c7_e29 ∈ p'.2.entries :=
  (C7_retention_sweep c7_store c7_now).2 ("u", c7_user) (List.mem_cons_self _ _) c7_e29
    (List.mem_cons_self _ _) (by decide)

/-- C5 counterexample: in Python the empty string is a substring of every
string, so `search(user, "")` scores every entry `1.5 × relevance` and returns
it — a non-empty result, contradicting the claim's empty-query clause. -/
theorem C5_empty_query_counterexample :
    (search_user_memory c5_store "u" [] 5).map MemoryEntry.id = [0] ∧
    ([0] : List ℕ) ≠ [] := by
  exact ⟨by with_unfolding_all decide, by decide⟩

/-- C5 (amended): a query whose lower-cased text does not occur as a substring
of any entry's serialized payload or context, and none of whose whitespace
tokens occurs either, yields an empty search result.  (The empty query is not
such a query: the empty string occurs in every text.) -/
theorem C5_search_no_match (st : MemoryStore) (u : String) (q : List Char) (limit : ℕ)
    (h : ∀ um, alookup st u = some um → ∀ e ∈ um.entries,
      is_substr (lower_of q) (entry_data_text e) = false ∧
      is_substr (lower_of q) (entry_context_text e) = false ∧
      ∀ w ∈ split_ws (lower_of q),
        is_substr w (entry_data_text e) = false ∧
        is_substr w (entry_context_text e) = false) :
    search_user_memory st u q limit = [] := by
  unfold search_user_memory
  cases halo : alookup st u with
  | none => rfl
  | some um =>
    show (((um.entries.filterMap (fun e =>
      if 0 < calculate_search_score e (lower_of q) then
        some (e, calculate_search_score e (lower_of q))
      else none)).insertionSort search_ge).take limit).map Prod.fst = []
    have hz : um.entries.filterMap (fun e =>
        if 0 < calculate_search_score e (lower_of q) then
          some (e, calculate_search_score e (lower_of q))
        else none) = [] := by
      rw [List.filterMap_eq_nil_iff]
      intro e he
      have he2 := h um halo e he
      have hsum : ((split_ws (lower_of q)).map (fun word =>
          (if is_substr word (entry_data_text e) then (0.3 : ℚ) else 0) +
            (if is_substr word (entry_context_text e) then (0.1 : ℚ) else 0))).sum = 0 := by
        apply List.sum_eq_zero
        intro x hx
        obtain ⟨w, hw, hwx⟩ := List.mem_map.mp hx
        have hww := he2.2.2 w hw
        rw [← hwx, hww.1, hww.2]
        norm_num
      have hscore : calculate_search_score e (lower_of q) = 0 := by
        simp only [calculate_search_score]
        rw [he2.1, he2.2.1, hsum]
        norm_num
      rw [hscore]
      norm_num
    rw [hz]
    simp [List.take_nil, List.insertionSort]

/-- Witness for C5 (amended): searching for a query with no substring match in
the stored entry returns the empty list. -/
theorem C5_search_no_match_witness :
    search_user_memory c5_store "u" "zzz".toList 5 = [] := by
  refine C5_search_no_match c5_store "u" "zzz".toList 5 ?_
  intro um hum e he
  have hum0 : alookup c5_store "u" = some c5_user := rfl
  rw [hum0] at hum
  cases hum
  have he' : e ∈ [c5_entry] := he
  rw [List.mem_singleton] at he'
  subst he'
  with_unfolding_all decide

theorem store_interaction_some_score (M : ℕ) (st : MemoryStore) (now : Int) (eid : ℕ)
    (req : MemoryRequest) (st' : MemoryStore) (e : MemoryEntry)
    (h : store_interaction M st now eid req = (st', some e)) :
    calculate_relevance_score req.interaction = some e.relevance_score := by
  unfold store_interaction at h
  cases hq : calculate_relevance_score req.interaction with
  | none => rw [hq] at h; simp at h
  | some score =>
    rw [hq] at h
    simp only [Prod.mk.injEq, Option.some.injEq] at h
    rw [← h.2]
    rfl

theorem spec_type_bonus_nonneg (i : PyDict) : 0 ≤ spec_type_bonus i := by
  unfold spec_type_bonus
  split_ifs <;> norm_num

theorem spec_entity_bonus_nonneg (i : PyDict) : 0 ≤ spec_entity_bonus i := by
  unfold spec_entity_bonus
  split
  · positivity
  · exact le_refl 0

theorem spec_payload_context_bonus_nonneg (i : PyDict) : 0 ≤ spec_payload_context_bonus i := by
  unfold spec_payload_context_bonus
  split
  · split_ifs <;> norm_num
  · exact le_refl 0

theorem max_zero_min_one (s : ℚ) (h : 0 ≤ s) : max 0 (min s 1) = min s 1 := by
  rw [max_eq_right]
  exact le_min h (by norm_num)

theorem base_eq_spec (i : PyDict) :
    interaction_type_base i = 0.5 + spec_type_bonus i := by
  unfold interaction_type_base spec_type_bonus
  by_cases h1 : py_type_tag i = some "purchase" ∨ py_type_tag i = some "support" ∨
      py_type_tag i = some "form_fill"
  · have h2 : ¬(py_type_tag i = some "question" ∨ py_type_tag i = some "search") := by
      rcases h1 with h | h | h <;> rw [h] <;> decide
    rw [if_pos h1, if_pos h1, if_neg h2]
    norm_num
  · rw [if_neg h1, if_neg h1]
    by_cases h2 : py_type_tag i = some "question" ∨ py_type_tag i = some "search"
    · rw [if_pos h2, if_pos h2]
      norm_num
    · rw [if_neg h2, if_neg h2]
      norm_num

theorem ctx_step_eq_spec (i : PyDict) (s q : ℚ)
    (hq : context_rich_step i s = some q)
    (hctx : payload_context_wf i) :
    q = min (s + spec_payload_context_bonus i) 1 := by
  unfold context_rich_step at hq
  unfold spec_payload_context_bonus
  cases hc : alookup i "context" with
  | none =>
    rw [hc] at hq
    simp only [Option.some.injEq] at hq
    rw [← hq]
    show min s 1 = min (s + 0) 1
    rw [add_zero]
  | some v =>
    obtain ⟨d, hv⟩ := hctx v hc
    subst hv
    rw [hc] at hq
    simp only [py_len, Option.some.injEq] at hq
    rw [← hq]
    show min (if 2 < d.length then s + 0.1 else s) 1 =
      min (s + if 2 < d.length then (0.1 : ℚ) else 0) 1
    by_cases hd : 2 < d.length
    · rw [if_pos hd, if_pos hd]
    · rw [if_neg hd, if_neg hd, add_zero]

theorem calc_relevance_eq_spec (i : PyDict) (q : ℚ)
    (hq : calculate_relevance_score i = some q)
    (hent : entities_wf i) (hctx : payload_context_wf i) :
    q = spec_relevance_amended i := by
  have hnn : (0 : ℚ) ≤ 0.5 + spec_type_bonus i + spec_entity_bonus i +
      spec_payload_context_bonus i := by
    have h1 := spec_type_bonus_nonneg i
    have h2 := spec_entity_bonus_nonneg i
    have h3 := spec_payload_context_bonus_nonneg i
    linarith
  unfold calculate_relevance_score at hq
  unfold spec_relevance_amended
  rw [max_zero_min_one _ hnn]
  cases he : alookup i "entities" with
  | none =>
    rw [he] at hq
    have hbe : spec_entity_bonus i = 0 := by
      unfold spec_entity_bonus
      rw [he]
    rw [ctx_step_eq_spec i _ q hq hctx, base_eq_spec, hbe, add_zero]
  | some v =>
    obtain ⟨l, hv⟩ := hent v he
    subst hv
    rw [he] at hq
    simp only [py_len] at hq
    have hbe : spec_entity_bonus i = min ((l.length : ℚ) * 0.1) 0.3 := by
      unfold spec_entity_bonus
      rw [he]
    rw [← hbe] at hq
    rw [ctx_step_eq_spec i _ q hq hctx, base_eq_spec]

/-- C1 counterexample: a store call whose payload has no `context` key but
whose `context` argument has 3 keys gets relevance 0.5 from the code, while
the claim's formula (reading the store-call context) yields 0.6. -/
theorem C1_store_context_counterexample :
    ((store_interaction 1000 [] 0 0 c1_request).2.map MemoryEntry.relevance_score =
      some 0.5) ∧
    spec_relevance_C1 c1_request.interaction (c1_request.context.getD []) = 0.6 ∧
    (0.5 : ℚ) ≠ 0.6 := by
  refine ⟨?_, ?_, ?_⟩ <;> with_unfolding_all decide

/-- C1 (amended): the relevance score of every entry created by a successful
store call equals 0.5 plus the type bonus, plus the capped entity bonus, plus
0.1 when the payload's own `context` entry has more than 2 keys (the store
call's `context` argument is never consulted), clamped to [0, 1]. -/
theorem C1_relevance_amended (M : ℕ) (st : MemoryStore) (now : Int) (eid : ℕ)
    (req : MemoryRequest) (st' : MemoryStore) (e : MemoryEntry)
    (h : store_interaction M st now eid req = (st', some e))
    (hent : entities_wf req.interaction) (hctx : payload_context_wf req.interaction) :
    e.relevance_score = spec_relevance_amended req.interaction :=
  calc_relevance_eq_spec req.interaction e.relevance_score
    (store_interaction_some_score M st now eid req st' e h) hent hctx

/-- Witness for C1 (amended): the concrete store call of the counterexample
satisfies the amended formula (both sides are 0.5). -/
theorem C1_relevance_amended_witness :
    c1_entry.relevance_score = spec_relevance_amended c1_request.interaction := by
  refine C1_relevance_amended 1000 [] 0 0 c1_request
    (store_interaction 1000 [] 0 0 c1_request).1 c1_entry ?_ ?_ ?_
  · with_unfolding_all rfl
  · intro v hv
    rw [show alookup c1_request.interaction "entities" = none from rfl] at hv
    exact Option.noConfusion hv
  · intro v hv
    rw [show alookup c1_request.interaction "context" = none from rfl] at hv
    exact Option.noConfusion hv

theorem interaction_type_base_ge (i : PyDict) : 0.5 ≤ interaction_type_base i := by
  unfold interaction_type_base
  split_ifs <;> norm_num

theorem ctx_step_bounds (i : PyDict) (s q : ℚ) (hs : 0.5 ≤ s)
    (hq : context_rich_step i s = some q) : 0.5 ≤ q ∧ q ≤ 1 := by
  unfold context_rich_step at hq
  cases hc : alookup i "context" with
  | none =>
    rw [hc] at hq
    simp only [Option.some.injEq] at hq
    rw [← hq]
    exact ⟨le_min hs (by norm_num), min_le_right _ _⟩
  | some v =>
    rw [hc] at hq
    cases hpl : py_len v with
    | none => simp [hpl] at hq
    | some n =>
      simp only [hpl, Option.some.injEq] at hq
      rw [← hq]
      refine ⟨le_min ?_ (by norm_num), min_le_right _ _⟩
      split_ifs with hn
      · linarith
      · exact hs

/-- C10 (implicit): every relevance score the code computes without raising
lies in [0.5, 1]: the base is 0.5, every bonus is non-negative, and the result
is capped at 1, so the spec's lower clamp at 0 is unreachable. -/
theorem C10_relevance_bounds (i : PyDict) (q : ℚ)
    (hq : calculate_relevance_score i = some q) : 0.5 ≤ q ∧ q ≤ 1 := by
  unfold calculate_relevance_score at hq
  cases he : alookup i "entities" with
  | none =>
    rw [he] at hq
    exact ctx_step_bounds i _ q (interaction_type_base_ge i) hq
  | some v =>
    rw [he] at hq
    cases hpl : py_len v with
    | none => simp [hpl] at hq
    | some n =>
      simp only [hpl] at hq
      refine ctx_step_bounds i _ q ?_ hq
      have h1 := interaction_type_base_ge i
      have h2 : (0 : ℚ) ≤ min ((n : ℚ) * 0.1) 0.3 := by positivity
      linarith

/-- Witness for C10: the concrete payload of type `view` scores exactly 0.5,
inside [0.5, 1]. -/
theorem C10_relevance_bounds_witness :
    calculate_relevance_score c1_payload = some 0.5 ∧
    ((0.5 : ℚ) ≤ 0.5 ∧ (0.5 : ℚ) ≤ 1) :=
  ⟨by with_unfolding_all rfl,
    C10_relevance_bounds c1_payload 0.5 (by with_unfolding_all rfl)⟩

/-- C8 (code bug): the code sorts the window most-recent-first and then takes
`[-5:]`, so after storing a sixth interaction (intent i6, times 1..6) the
summary's `recent_intents` is the five oldest intents i5..i1 in
reverse-chronological order — not the five latest i2..i6 in chronological
order as the claim (and the code's own comment) state. -/
theorem C8_recent_intents_eval :
    ((alookup (store_interaction 1000 c8_store 6 6 c8_request).1 "u").map
      (fun um => um.context_summary.recent_intents.map jval_str)) =
        some ["i5", "i4", "i3", "i2", "i1"] ∧
    (["i5", "i4", "i3", "i2", "i1"] : List String) ≠ ["i2", "i3", "i4", "i5", "i6"] := by
  exact ⟨by with_unfolding_all decide, by decide⟩

end Fraym
